import Mathlib

set_option maxRecDepth 10000

/-!
Verification of the Fastly destination plugin
(`lemur/plugins/lemur_fastly/plugin.py`).

The development shallowly embeds the plugin's `upload` reconciliation
routine and its helper functions.  Remote calls are modelled by an
explicit `RemoteState` (the Fastly-side inventory of private keys,
certificates and activations) together with a `CallPlan` that injects
the success/failure outcome of every remote call; `uploadRun` returns
the final remote state, the ordered trace of attempted mutating calls,
and whether the upload branch was taken.
-/

namespace Fastly

/-! ### Byte-level helpers: SHA-1, base64 and PEM

`get_public_key_sha1` in the plugin loads the PEM private key,
serialises the public key with `Encoding.PEM` /
`PublicFormat.SubjectPublicKeyInfo` and returns
`hashlib.sha1(pub_key).hexdigest()`.  We model bytes as `Nat` values
and implement SHA-1 and the PEM wrapping (base64 of the DER bytes)
concretely so the digest is executable.
-/

/-- Split a list into chunks of `n` elements (fuel-based so that the
kernel can evaluate it). -/
def chunksAux {α : Type} (n : Nat) : Nat → List α → List (List α)
  | 0, _ => []
  | _, [] => []
  | fuel+1, l => l.take n :: chunksAux n fuel (l.drop n)

/-- Split a list into chunks of `n` elements. -/
def chunks {α : Type} (n : Nat) (l : List α) : List (List α) :=
  chunksAux n l.length l

/-- 32-bit left rotation on naturals reduced mod `2^32`. -/
def rotl32 (x s : Nat) : Nat :=
  ((x <<< s) + (x >>> (32 - s))) % 4294967296

/-- SHA-1 padding: append `0x80`, zero bytes up to 56 mod 64, then the
bit length as 8 big-endian bytes. -/
def sha1pad (msg : List Nat) : List Nat :=
  let bitLen := msg.length * 8
  let zeros := (119 - msg.length % 64) % 64
  msg ++ [128] ++ List.replicate zeros 0 ++
    [(bitLen >>> 56) % 256, (bitLen >>> 48) % 256, (bitLen >>> 40) % 256,
     (bitLen >>> 32) % 256, (bitLen >>> 24) % 256, (bitLen >>> 16) % 256,
     (bitLen >>> 8) % 256, bitLen % 256]

/-- Big-endian 32-bit word from a list of bytes. -/
def bytesToWord (b : List Nat) : Nat :=
  b.foldl (fun acc x => acc * 256 + x) 0

/-- Message-schedule extension: repeatedly append
`rotl32 (w[n-3] xor w[n-8] xor w[n-14] xor w[n-16]) 1`. -/
def sha1Extend (w : List Nat) : Nat → List Nat
  | 0 => w
  | fuel+1 =>
    let n := w.length
    let x := rotl32 ((((w.getD (n-3) 0) ^^^ (w.getD (n-8) 0)) ^^^
      (w.getD (n-14) 0)) ^^^ (w.getD (n-16) 0)) 1
    sha1Extend (w ++ [x]) fuel

/-- Round function of SHA-1. -/
def sha1f (t b c d : Nat) : Nat :=
  if t < 20 then (b &&& c) ||| ((b ^^^ 4294967295) &&& d)
  else if t < 40 then (b ^^^ c) ^^^ d
  else if t < 60 then ((b &&& c) ||| (b &&& d)) ||| (c &&& d)
  else (b ^^^ c) ^^^ d

/-- Round constants of SHA-1. -/
def sha1k (t : Nat) : Nat :=
  if t < 20 then 1518500249
  else if t < 40 then 1859775393
  else if t < 60 then 2400959708
  else 3395469782

/-- Compress one 64-byte block into the running state. -/
def sha1Block (h : Nat × Nat × Nat × Nat × Nat) (block : List Nat) :
    Nat × Nat × Nat × Nat × Nat :=
  let w := sha1Extend ((chunks 4 block).map bytesToWord) 64
  let r := (List.range 80).foldl
    (fun (st : Nat × Nat × Nat × Nat × Nat) t =>
      let tmp := (rotl32 st.1 5 + sha1f t st.2.1 st.2.2.1 st.2.2.2.1 +
        st.2.2.2.2 + sha1k t + w.getD t 0) % 4294967296
      (tmp, st.1, rotl32 st.2.1 30, st.2.2.1, st.2.2.2.1)) h
  ((h.1 + r.1) % 4294967296, (h.2.1 + r.2.1) % 4294967296,
   (h.2.2.1 + r.2.2.1) % 4294967296, (h.2.2.2.1 + r.2.2.2.1) % 4294967296,
   (h.2.2.2.2 + r.2.2.2.2) % 4294967296)

/-- The five 32-bit output words of SHA-1 over a byte list. -/
def sha1Words (msg : List Nat) : List Nat :=
  let h := (chunks 64 (sha1pad msg)).foldl sha1Block
    (1732584193, 4023233417, 2562383102, 271733878, 3285377520)
  [h.1, h.2.1, h.2.2.1, h.2.2.2.1, h.2.2.2.2]

/-- Lower-case hex digit. -/
def hexDigit (n : Nat) : Char :=
  "0123456789abcdef".toList.getD n '0'

/-- Eight lower-case hex digits of a 32-bit word, big-endian. -/
def wordHex (n : Nat) : List Char :=
  [hexDigit ((n >>> 28) % 16), hexDigit ((n >>> 24) % 16),
   hexDigit ((n >>> 20) % 16), hexDigit ((n >>> 16) % 16),
   hexDigit ((n >>> 12) % 16), hexDigit ((n >>> 8) % 16),
   hexDigit ((n >>> 4) % 16), hexDigit (n % 16)]

/-- `hashlib.sha1(msg).hexdigest()`: 40 lower-case hex characters. -/
def sha1Hex (msg : List Nat) : String :=
  String.mk ((sha1Words msg).foldr (fun w acc => wordHex w ++ acc) [])

/-- Standard base64 alphabet. -/
def b64char (n : Nat) : Char :=
  "ABCDEFGHIJKLMNOPQRSTUVWXYZabcdefghijklmnopqrstuvwxyz0123456789+/".toList.getD n 'A'

/-- Base64 encoding of a byte list (with `=` padding). -/
def b64chars : List Nat → List Char
  | [] => []
  | [a] => [b64char (a >>> 2), b64char ((a &&& 3) <<< 4), '=', '=']
  | [a, b] => [b64char (a >>> 2), b64char (((a &&& 3) <<< 4) ||| (b >>> 4)),
      b64char ((b &&& 15) <<< 2), '=']
  | a :: b :: c :: rest =>
    b64char (a >>> 2) :: b64char (((a &&& 3) <<< 4) ||| (b >>> 4)) ::
      b64char (((b &&& 15) <<< 2) ||| (c >>> 6)) :: b64char (c &&& 63) ::
      b64chars rest

/-- ASCII bytes of a string. -/
def asciiBytes (s : String) : List Nat :=
  s.toList.map Char.toNat

/-- PEM body: base64 characters broken into lines of 64, each line
terminated by a newline. -/
def pemBody (der : List Nat) : List Nat :=
  ((chunks 64 (b64chars der)).map
    (fun line => (line.map Char.toNat) ++ [10])).flatten

/-- Bytes of the `SubjectPublicKeyInfo` PEM serialisation of a public
key whose DER encoding is `der` (the output of
`public_bytes(Encoding.PEM, PublicFormat.SubjectPublicKeyInfo)`). -/
def pemPublicKeyBytes (der : List Nat) : List Nat :=
  asciiBytes "-----BEGIN PUBLIC KEY-----\n" ++ pemBody der ++
    asciiBytes "-----END PUBLIC KEY-----\n"

/-- A local PEM private key, abstracted by the DER
(`SubjectPublicKeyInfo`) encoding of its public key.  Parsing the PEM
and extracting the public key are done by the external `cryptography`
library, which this field models. -/
structure LocalPrivateKey where
  publicDER : List Nat
deriving DecidableEq

/-- `get_public_key_sha1`: serialise the public key with
`Encoding.PEM` / `PublicFormat.SubjectPublicKeyInfo` and return the
hex SHA-1 digest of those PEM bytes. -/
def get_public_key_sha1 (private_key : LocalPrivateKey) : String :=
  sha1Hex (pemPublicKeyBytes private_key.publicDER)

/-! ### Remote data model

The Fastly-side records, as the listing endpoints expose them:
`/tls/private_keys` entries carry `id`, `attributes.name` and
`attributes.public_key_sha1`; `/tls/certificates` entries carry `id`
and `attributes.name`; `/tls/activations` entries carry `id` and
`relationships.tls_certificate.data.id`.
-/

/-- A private-key record on the remote service. -/
structure RawPrivKey where
  id : String
  name : String
  public_key_sha1 : String
deriving DecidableEq

/-- The dict `get_all_private_keys` builds per entry:
`{"id": ..., "name": ..., "sha1": ...}`. -/
structure PrivKeyEntry where
  id : String
  name : String
  sha1 : String
deriving DecidableEq

/-- The dict `get_all_certificates` builds per entry (also the remote
certificate record, which only `id` and `name` of are read). -/
structure CertEntry where
  id : String
  name : String
deriving DecidableEq

/-- An activation record on the remote service: its `id` and the
certificate id under `relationships.tls_certificate.data.id`. -/
structure RawAct where
  id : String
  tls_certificate_id : String
deriving DecidableEq

/-- The remote inventory: the three resource collections. -/
structure RemoteState where
  keys : List RawPrivKey
  certs : List CertEntry
  acts : List RawAct
deriving DecidableEq

/-! ### Listing helpers

Each helper wraps its `_get` call in `try/except`: a failed GET is
caught, logged, and the accumulator — still empty — is returned.  The
`Except` argument is the outcome of the `_get` call.
-/

/-- `get_all_private_keys`: on success map each entry to
`{id, name, sha1}`; on any exception from `_get` return the (empty)
accumulator. -/
def get_all_private_keys : Except String (List RawPrivKey) → List PrivKeyEntry
  | Except.error _ => []
  | Except.ok data => data.map fun each => ⟨each.id, each.name, each.public_key_sha1⟩

/-- `get_all_certificates`: on success map each entry to `{id, name}`;
on any exception from `_get` return the (empty) accumulator. -/
def get_all_certificates : Except String (List CertEntry) → List CertEntry
  | Except.error _ => []
  | Except.ok data => data.map fun each => ⟨each.id, each.name⟩

/-- The comparison `each['relationships']['tls_certificate']['data']['id'] == cert_id`
inside `get_activation`.  `cert_id` may be Python `None` (the `upload`
caller passes it through unchanged), and `str == None` is `False`. -/
def actRef (cert_id : Option String) (each : RawAct) : Bool :=
  match cert_id with
  | none => false
  | some c => each.tls_certificate_id == c

/-- `get_activation`: list all activations and collect the ids of
those whose certificate reference equals `cert_id`; on any exception
from `_get` return the (empty) accumulator. -/
def get_activation (cert_id : Option String) : Except String (List RawAct) → List String
  | Except.error _ => []
  | Except.ok data => (data.filter (actRef cert_id)).map fun each => each.id

/-! ### Mutating helpers

Each takes the success of its HTTP call as a `Bool` (`false` models a
raised-and-caught exception) and the current remote state, and
returns the resulting remote state.  All four swallow exceptions: a
failure only logs and leaves the remote state unchanged.
-/

/-- `post_private_key`: on success the service stores a new key record
(named `name`) whose `public_key_sha1` it computes from the uploaded
key material — i.e. the same digest `get_public_key_sha1` yields for
that key — and the new id is returned; on failure `None` is returned. -/
def post_private_key (ok : Bool) (newId name sha : String) (s : RemoteState) :
    RemoteState × Option String :=
  if ok then ({ s with keys := s.keys ++ [⟨newId, name, sha⟩] }, some newId)
  else (s, none)

/-- `post_certificate`: on success a new certificate record (named
`name`, body `cert\nchain`) is created and its id returned; on
failure `None` is returned. -/
def post_certificate (ok : Bool) (newId name : String) (s : RemoteState) :
    RemoteState × Option String :=
  if ok then ({ s with certs := s.certs ++ [⟨newId, name⟩] }, some newId)
  else (s, none)

/-- `patch_activation`: on success the activation with id `act_id` now
references certificate `cert_id`; on failure nothing changes. -/
def patch_activation (ok : Bool) (act_id cert_id : String) (s : RemoteState) :
    RemoteState :=
  if ok then
    { s with acts := s.acts.map fun a =>
        if a.id == act_id then ⟨a.id, cert_id⟩ else a }
  else s

/-- `delete_certificate`: on success the certificate record with id
`key_id` is removed; on failure nothing changes. -/
def delete_certificate (ok : Bool) (key_id : String) (s : RemoteState) : RemoteState :=
  if ok then { s with certs := s.certs.filter fun c => !(c.id == key_id) }
  else s

/-- `delete_private_key`: on success the key record with id `key_id`
is removed; on failure nothing changes. -/
def delete_private_key (ok : Bool) (key_id : String) (s : RemoteState) : RemoteState :=
  if ok then { s with keys := s.keys.filter fun k => !(k.id == key_id) }
  else s

/-! ### The lookup scan of `upload` (plugin.py lines 61–71) -/

/-- Python truthiness of an id value: `None` and `""` are falsy,
every other string truthy. -/
def optTruthy : Option String → Bool
  | none => false
  | some s => !(s == "")

/-- The accumulator triple of the scan. -/
structure ScanState where
  priv_id : Option String
  cert_id : Option String
  name_found : Bool
deriving DecidableEq

/-- The inner loop `for cert in cert_keys: if cert['name'] == cname:
cert_id = cert['id']` — it overwrites `cert_id` with every match, so
the last matching entry wins. -/
def certScan (cname : String) (cert_keys : List CertEntry) (cert_id : Option String) :
    Option String :=
  cert_keys.foldl (fun acc cert => if cert.name == cname then some cert.id else acc)
    cert_id

/-- The outer loop over `priv_keys`: a name match with equal sha1 sets
`priv_id = None` and breaks; a name match with different sha1 records
the entry's id and rescans the certificates; other entries are
skipped. -/
def scanKeys (cname sha : String) (cert_keys : List CertEntry) :
    List PrivKeyEntry → Option String → Option String → Bool → ScanState
  | [], priv_id, cert_id, name_found => ⟨priv_id, cert_id, name_found⟩
  | each :: rest, priv_id, cert_id, name_found =>
    if each.name == cname then
      if each.sha1 == sha then ⟨none, cert_id, true⟩
      else scanKeys cname sha cert_keys rest (some each.id)
        (certScan cname cert_keys cert_id) true
    else scanKeys cname sha cert_keys rest priv_id cert_id name_found

/-- The scan with its initial accumulators
(`priv_id = None`, `cert_id = None`, `name_found = False`). -/
def lookupScan (cname sha : String) (priv_keys : List PrivKeyEntry)
    (cert_keys : List CertEntry) : ScanState :=
  scanKeys cname sha cert_keys priv_keys none none false

/-! ### The reconciliation run -/

/-- One attempted mutating remote call.  Listing (GET) calls are reads
and are not recorded.  An event records the *attempt*: a call that the
remote rejects still appears in the trace. -/
inductive Event where
  | createKey : String → Event
  | createCert : String → Event
  | patchAct : String → String → Event
  | deleteCert : String → Event
  | deleteKey : String → Event
deriving DecidableEq

/-- Outcome of every remote call a run may make: which calls succeed,
and the ids the service assigns to created resources.  `patchFails`
lists the activation ids whose PATCH raises. -/
structure CallPlan where
  listKeysOk : Bool
  listCertsOk : Bool
  postKeyOk : Bool
  newKeyId : String
  postCertOk : Bool
  newCertId : String
  listActsOk : Bool
  patchFails : List String
  deleteCertOk : Bool
  deleteKeyOk : Bool
deriving DecidableEq

/-- The loop `for each in act_id: patch_activation(each, new_cert_id)`. -/
def patchAll (fails : List String) (act_ids : List String) (cert_id : String)
    (s : RemoteState) : RemoteState :=
  act_ids.foldl (fun st aid => patch_activation (!(fails.contains aid)) aid cert_id st) s

/-- Result of a run of `upload`: the final remote state, the ordered
trace of attempted mutating calls, and whether the upload branch (as
opposed to the up-to-date no-op branch) was taken. -/
structure RunResult where
  state : RemoteState
  trace : List Event
  uploaded : Bool
deriving DecidableEq

/-- The `if priv_id or not name_found:` branch of `upload` (plugin.py
lines 72–85): create the key and the certificate, re-point the
activations of the old certificate, then delete the old certificate
and the old private key.  `sha` is `get_public_key_sha1(private_key)`
and `scan` the result of the lookup loop. -/
def uploadEffect (cname sha : String) (scan : ScanState) (plan : CallPlan)
    (s0 : RemoteState) : RunResult :=
  -- post_private_key(private_key, name=cname)  (return value unused)
  let s1 := (post_private_key plan.postKeyOk plan.newKeyId cname sha s0).1
  -- new_cert_id = post_certificate(body, cert_chain, name=cname)
  let pc := post_certificate plan.postCertOk plan.newCertId cname s1
  let s2 := pc.1
  let new_cert_id := pc.2
  -- act_id = get_activation(cert_id)
  let act_id := get_activation scan.cert_id
    (if plan.listActsOk then Except.ok s2.acts else Except.error "")
  -- if len(act_id) > 0 and new_cert_id: patch each activation
  let doPatch := (!act_id.isEmpty) && optTruthy new_cert_id
  let ncid := new_cert_id.getD ""
  let s3 := if doPatch then patchAll plan.patchFails act_id ncid s2 else s2
  let patchTrace := if doPatch then act_id.map (fun aid => Event.patchAct aid ncid)
    else []
  -- if cert_id: delete_certificate(cert_id)
  let s4 := if optTruthy scan.cert_id then
      delete_certificate plan.deleteCertOk (scan.cert_id.getD "") s3
    else s3
  let certTrace := if optTruthy scan.cert_id then
      [Event.deleteCert (scan.cert_id.getD "")] else []
  -- if priv_id: delete_private_key(priv_id)
  let s5 := if optTruthy scan.priv_id then
      delete_private_key plan.deleteKeyOk (scan.priv_id.getD "") s4
    else s4
  let keyTrace := if optTruthy scan.priv_id then
      [Event.deleteKey (scan.priv_id.getD "")] else []
  ⟨s5, Event.createKey cname :: Event.createCert cname ::
    (patchTrace ++ certTrace ++ keyTrace), true⟩

/-- The body of `FastlyDestinationPlugin.upload` (plugin.py lines
52–88), with `cname` standing for `common_name(parse_certificate(body))`.
Remote-call outcomes are injected through `plan`; the remote state
evolves through the helper functions above. -/
def uploadRun (cname : String) (private_key : LocalPrivateKey) (plan : CallPlan)
    (s0 : RemoteState) : RunResult :=
  let sha := get_public_key_sha1 private_key
  let priv_keys := get_all_private_keys
    (if plan.listKeysOk then Except.ok s0.keys else Except.error "")
  let cert_keys := get_all_certificates
    (if plan.listCertsOk then Except.ok s0.certs else Except.error "")
  let scan := lookupScan cname sha priv_keys cert_keys
  if optTruthy scan.priv_id || !scan.name_found then
    uploadEffect cname sha scan plan s0
  else
    ⟨s0, [], false⟩

/-- The scan a run performs, as a function of the plan's listing
outcomes (the `lookup` stage of `uploadRun`, named for reasoning). -/
def runScan (cname : String) (private_key : LocalPrivateKey) (plan : CallPlan)
    (s0 : RemoteState) : ScanState :=
  lookupScan cname (get_public_key_sha1 private_key)
    (get_all_private_keys
      (if plan.listKeysOk then Except.ok s0.keys else Except.error ""))
    (get_all_certificates
      (if plan.listCertsOk then Except.ok s0.certs else Except.error ""))

/-! ### Auxiliary predicates used in claim statements -/

/-- A plan on which every remote call of the run succeeds. -/
def CallPlan.allOk (p : CallPlan) : Prop :=
  p.listKeysOk = true ∧ p.listCertsOk = true ∧ p.postKeyOk = true ∧
  p.postCertOk = true ∧ p.listActsOk = true ∧ p.patchFails = [] ∧
  p.deleteCertOk = true ∧ p.deleteKeyOk = true

/-- The spec invariant: no activation references a certificate id that
is absent from the certificate collection. -/
@[reducible]
def noDangling (s : RemoteState) : Prop :=
  ∀ a ∈ s.acts, ∃ c ∈ s.certs, c.id = a.tls_certificate_id

/-- Spec-side description (for the amended first-match claim): the id
of the last private-key entry whose name matches. -/
def lastNameMatchKeyId (cname : String) (keys : List PrivKeyEntry) : Option String :=
  ((keys.filter fun e => e.name == cname).map fun e => e.id).getLast?

/-- Spec-side description: the id of the last certificate entry whose
name matches. -/
def lastNameMatchCertId (cname : String) (certs : List CertEntry) : Option String :=
  ((certs.filter fun c => c.name == cname).map fun c => c.id).getLast?

/-- Modelled from the spec's words, for comparison with the code's
digest: "SHA-1 of the DER-encoded public key, hex". -/
def derFingerprint (private_key : LocalPrivateKey) : String :=
  sha1Hex private_key.publicDER

/-! ## Frame lemmas for the mutating helpers -/

theorem post_private_key_fst_certs (ok : Bool) (i n sh : String) (s : RemoteState) :
    ((post_private_key ok i n sh s).1).certs = s.certs := by
  cases ok <;> rfl

theorem post_private_key_fst_acts (ok : Bool) (i n sh : String) (s : RemoteState) :
    ((post_private_key ok i n sh s).1).acts = s.acts := by
  cases ok <;> rfl

theorem post_certificate_fst_keys (ok : Bool) (i n : String) (s : RemoteState) :
    ((post_certificate ok i n s).1).keys = s.keys := by
  cases ok <;> rfl

theorem post_certificate_fst_acts (ok : Bool) (i n : String) (s : RemoteState) :
    ((post_certificate ok i n s).1).acts = s.acts := by
  cases ok <;> rfl

theorem patch_activation_keys (ok : Bool) (a c : String) (s : RemoteState) :
    (patch_activation ok a c s).keys = s.keys := by
  cases ok <;> rfl

theorem patch_activation_certs (ok : Bool) (a c : String) (s : RemoteState) :
    (patch_activation ok a c s).certs = s.certs := by
  cases ok <;> rfl

theorem delete_certificate_keys (ok : Bool) (i : String) (s : RemoteState) :
    (delete_certificate ok i s).keys = s.keys := by
  cases ok <;> rfl

theorem delete_certificate_acts (ok : Bool) (i : String) (s : RemoteState) :
    (delete_certificate ok i s).acts = s.acts := by
  cases ok <;> rfl

theorem delete_private_key_certs (ok : Bool) (i : String) (s : RemoteState) :
    (delete_private_key ok i s).certs = s.certs := by
  cases ok <;> rfl

theorem delete_private_key_acts (ok : Bool) (i : String) (s : RemoteState) :
    (delete_private_key ok i s).acts = s.acts := by
  cases ok <;> rfl

theorem patchAll_keys (fails : List String) (aids : List String) (n : String)
    (s : RemoteState) : (patchAll fails aids n s).keys = s.keys := by
  induction aids generalizing s with
  | nil => rfl
  | cons a rest ih =>
    simp only [patchAll, List.foldl_cons] at *
    rw [ih, patch_activation_keys]

theorem patchAll_certs (fails : List String) (aids : List String) (n : String)
    (s : RemoteState) : (patchAll fails aids n s).certs = s.certs := by
  induction aids generalizing s with
  | nil => rfl
  | cons a rest ih =>
    simp only [patchAll, List.foldl_cons] at *
    rw [ih, patch_activation_certs]

/-- With no failing PATCH, the loop re-points exactly the activations
whose id occurs in `aids`. -/
theorem patchAll_acts_nofail (aids : List String) (n : String) (s : RemoteState) :
    (patchAll [] aids n s).acts =
      s.acts.map (fun a => if a.id ∈ aids then ⟨a.id, n⟩ else a) := by
  induction aids generalizing s with
  | nil =>
    simp [patchAll]
  | cons x rest ih =>
    simp only [patchAll, List.foldl_cons] at *
    rw [ih]
    simp only [patch_activation, List.contains, List.elem_nil, Bool.not_false, if_pos]
    simp only [List.map_map]
    apply List.map_congr_left
    intro a _
    by_cases hx : a.id = x
    · by_cases hr : a.id ∈ rest <;>
        simp [Function.comp, hx, hr]
    · have hxb : (a.id == x) = false := beq_eq_false_iff_ne.mpr hx
      by_cases hr : a.id ∈ rest <;>
        simp [Function.comp, hxb, hx, hr]

/-! ## Lemmas about the lookup scan -/

theorem certScan_mem (cname : String) (certs : List CertEntry)
    (init : Option String) (i : String)
    (h : certScan cname certs init = some i) :
    (∃ c ∈ certs, c.id = i) ∨ init = some i := by
  induction certs generalizing init with
  | nil => exact Or.inr h
  | cons c rest ih =>
    simp only [certScan, List.foldl_cons] at h
    rcases ih _ h with hr | hi
    · obtain ⟨cc, hcc, hid⟩ := hr
      exact Or.inl ⟨cc, List.mem_cons_of_mem _ hcc, hid⟩
    · by_cases hn : (c.name == cname) = true
      · rw [if_pos hn] at hi
        exact Or.inl ⟨c, List.mem_cons_self _ _, (Option.some_inj.mp hi)⟩
      · rw [if_neg hn] at hi
        exact Or.inr hi

theorem scanKeys_priv_mem (cname sha : String) (certs : List CertEntry)
    (keys : List PrivKeyEntry) (p c : Option String) (f : Bool) (i : String)
    (h : (scanKeys cname sha certs keys p c f).priv_id = some i) :
    (∃ e ∈ keys, e.id = i) ∨ p = some i := by
  induction keys generalizing p c f with
  | nil => exact Or.inr h
  | cons each rest ih =>
    simp only [scanKeys] at h
    by_cases hn : (each.name == cname) = true
    · rw [if_pos hn] at h
      by_cases hs : (each.sha1 == sha) = true
      · rw [if_pos hs] at h
        exact absurd h (by simp)
      · rw [if_neg hs] at h
        rcases ih _ _ _ h with hr | hi
        · obtain ⟨e, he, hid⟩ := hr
          exact Or.inl ⟨e, List.mem_cons_of_mem _ he, hid⟩
        · exact Or.inl ⟨each, List.mem_cons_self _ _, Option.some_inj.mp hi⟩
    · rw [if_neg hn] at h
      rcases ih _ _ _ h with hr | hi
      · obtain ⟨e, he, hid⟩ := hr
        exact Or.inl ⟨e, List.mem_cons_of_mem _ he, hid⟩
      · exact Or.inr hi

theorem scanKeys_cert_mem (cname sha : String) (certs : List CertEntry)
    (keys : List PrivKeyEntry) (p c : Option String) (f : Bool) (i : String)
    (h : (scanKeys cname sha certs keys p c f).cert_id = some i) :
    (∃ cc ∈ certs, cc.id = i) ∨ c = some i := by
  induction keys generalizing p c f with
  | nil => exact Or.inr h
  | cons each rest ih =>
    simp only [scanKeys] at h
    by_cases hn : (each.name == cname) = true
    · rw [if_pos hn] at h
      by_cases hs : (each.sha1 == sha) = true
      · rw [if_pos hs] at h
        exact Or.inr h
      · rw [if_neg hs] at h
        rcases ih _ _ _ h with hr | hi
        · exact Or.inl hr
        · exact certScan_mem cname certs c i hi
    · rw [if_neg hn] at h
      exact ih _ _ _ h

/-- If some listed key has the desired name and fingerprint, the scan
breaks with `priv_id = None` and `name_found = True`: the run is
up-to-date no matter what other entries precede or follow. -/
theorem scanKeys_found_match (cname sha : String) (certs : List CertEntry)
    (keys : List PrivKeyEntry) (p c : Option String) (f : Bool)
    (h : ∃ e ∈ keys, e.name = cname ∧ e.sha1 = sha) :
    (scanKeys cname sha certs keys p c f).priv_id = none ∧
    (scanKeys cname sha certs keys p c f).name_found = true := by
  induction keys generalizing p c f with
  | nil => simp at h
  | cons each rest ih =>
    by_cases hn : (each.name == cname) = true
    · by_cases hs : (each.sha1 == sha) = true
      · simp [scanKeys, hn, hs]
      · simp only [scanKeys, if_pos hn, if_neg hs]
        apply ih
        rcases h with ⟨e, he, hname, hsha⟩
        rcases List.mem_cons.mp he with rfl | hrest
        · exact absurd (beq_iff_eq.mpr hsha) hs
        · exact ⟨e, hrest, hname, hsha⟩
    · simp only [scanKeys, if_neg hn]
      apply ih
      rcases h with ⟨e, he, hname, hsha⟩
      rcases List.mem_cons.mp he with rfl | hrest
      · exact absurd (beq_iff_eq.mpr hname) hn
      · exact ⟨e, hrest, hname, hsha⟩

/-- `priv_id` and `name_found` do not depend on the certificate listing
or on the certificate accumulator. -/
theorem scanKeys_certs_indep (cname sha : String) (certsA certsB : List CertEntry)
    (keys : List PrivKeyEntry) (p cA cB : Option String) (f : Bool) :
    (scanKeys cname sha certsA keys p cA f).priv_id =
      (scanKeys cname sha certsB keys p cB f).priv_id ∧
    (scanKeys cname sha certsA keys p cA f).name_found =
      (scanKeys cname sha certsB keys p cB f).name_found := by
  induction keys generalizing p cA cB f with
  | nil => exact ⟨rfl, rfl⟩
  | cons each rest ih =>
    by_cases hn : (each.name == cname) = true
    · by_cases hs : (each.sha1 == sha) = true
      · simp [scanKeys, hn, hs]
      · simp only [scanKeys, if_pos hn, if_neg hs]
        exact ih _ _ _ _
    · simp only [scanKeys, if_neg hn]
      exact ih _ _ _ _

/-- The certificate rescan computes the id of the *last* name-matching
certificate entry, falling back to its accumulator. -/
theorem certScan_last (cname : String) (certs : List CertEntry)
    (init : Option String) :
    certScan cname certs init = (lastNameMatchCertId cname certs).or init := by
  induction certs generalizing init with
  | nil => rfl
  | cons c rest ih =>
    simp only [certScan, List.foldl_cons] at *
    rw [ih]
    simp only [lastNameMatchCertId, List.filter_cons]
    by_cases hn : (c.name == cname) = true
    · simp only [if_pos hn, List.map_cons, List.getLast?_cons]
      cases hb : ((rest.filter fun cc => cc.name == cname).map fun cc => cc.id).getLast? with
      | none =>
        simp only [lastNameMatchCertId, hb, Option.none_or, Option.getD]
        rfl
      | some v =>
        simp only [lastNameMatchCertId, hb, Option.getD]
        rfl
    · simp only [if_neg hn, lastNameMatchCertId]

/-- When every name-matching key entry has a different fingerprint,
the scan terminates normally: the remembered key id is the *last*
name-matching entry, the certificate id is the last name-matching
certificate entry (provided at least one key entry matched), and
`name_found` records whether any entry matched. -/
theorem scanKeys_all_mismatch (cname sha : String) (certs : List CertEntry)
    (keys : List PrivKeyEntry) (p c : Option String) (f : Bool)
    (h : ∀ e ∈ keys, e.name = cname → e.sha1 ≠ sha) :
    scanKeys cname sha certs keys p c f =
      ⟨(lastNameMatchKeyId cname keys).or p,
       if (keys.filter fun e => e.name == cname).isEmpty then c
         else (lastNameMatchCertId cname certs).or c,
       f || !(keys.filter fun e => e.name == cname).isEmpty⟩ := by
  induction keys generalizing p c f with
  | nil => simp [scanKeys, lastNameMatchKeyId]
  | cons each rest ih =>
    by_cases hn : (each.name == cname) = true
    · have hs : (each.sha1 == sha) = false :=
        beq_eq_false_iff_ne.mpr (h each (List.mem_cons_self _ _) (beq_iff_eq.mp hn))
      simp only [scanKeys, if_pos hn, hs, Bool.false_eq_true, if_false]
      rw [ih _ _ _ (fun e he => h e (List.mem_cons_of_mem _ he))]
      have hpriv : (lastNameMatchKeyId cname (each :: rest)).or p =
          (lastNameMatchKeyId cname rest).or (some each.id) := by
        simp only [lastNameMatchKeyId, List.filter_cons, if_pos hn, List.map_cons,
          List.getLast?_cons]
        cases hb : ((rest.filter fun e => e.name == cname).map fun e => e.id).getLast? with
        | none => simp [Option.getD, hb]
        | some v => simp [Option.getD, hb]
      have hcert :
          (if ((each :: rest).filter fun e => e.name == cname).isEmpty then c
            else (lastNameMatchCertId cname certs).or c) =
          (if (rest.filter fun e => e.name == cname).isEmpty then certScan cname certs c
            else (lastNameMatchCertId cname certs).or (certScan cname certs c)) := by
        simp only [List.filter_cons, if_pos hn, List.isEmpty_cons, if_false,
          Bool.false_eq_true]
        by_cases hre : (rest.filter fun e => e.name == cname).isEmpty = true
        · rw [if_pos hre, certScan_last]
        · rw [if_neg hre, certScan_last]
          cases (lastNameMatchCertId cname certs) <;>
            simp [Option.none_or]
      have hfe : ((each :: rest).filter fun e => e.name == cname).isEmpty = false := by
        simp [List.filter_cons, hn]
      have hfound : (f || !((each :: rest).filter fun e => e.name == cname).isEmpty) =
          (true || !(rest.filter fun e => e.name == cname).isEmpty) := by
        rw [hfe]
        simp
      rw [hpriv, ← hcert, ← hfound]
    · simp only [scanKeys, if_neg hn]
      rw [ih _ _ _ (fun e he => h e (List.mem_cons_of_mem _ he))]
      have hfk : (each :: rest).filter (fun e => e.name == cname) =
          rest.filter fun e => e.name == cname := by
        simp [List.filter_cons, hn]
      simp only [lastNameMatchKeyId, hfk]

/-! ## Lemmas about `get_activation` and the upload branch -/

theorem filter_actRef_none (l : List RawAct) : l.filter (actRef none) = [] := by
  induction l with
  | nil => rfl
  | cons a rest ih => simp [List.filter_cons, actRef, ih]

theorem get_activation_none (r : Except String (List RawAct)) :
    get_activation none r = [] := by
  cases r with
  | error e => rfl
  | ok data => simp [get_activation, filter_actRef_none]

/-- `uploadRun` unfolded through `runScan`. -/
theorem uploadRun_eq (cname : String) (pk : LocalPrivateKey) (plan : CallPlan)
    (s0 : RemoteState) :
    uploadRun cname pk plan s0 =
      if optTruthy (runScan cname pk plan s0).priv_id ||
          !(runScan cname pk plan s0).name_found then
        uploadEffect cname (get_public_key_sha1 pk) (runScan cname pk plan s0)
          plan s0
      else ⟨s0, [], false⟩ :=
  rfl

/-- The private-key collection a successful `post_private_key` leaves
behind, after the optional delete of the old key. -/
theorem uploadEffect_state_keys (cname sha : String) (scan : ScanState)
    (plan : CallPlan) (s0 : RemoteState) (hpk : plan.postKeyOk = true) :
    (uploadEffect cname sha scan plan s0).state.keys =
      if optTruthy scan.priv_id && plan.deleteKeyOk then
        (s0.keys ++ [(⟨plan.newKeyId, cname, sha⟩ : RawPrivKey)]).filter
          (fun kk => !(kk.id == scan.priv_id.getD ""))
      else s0.keys ++ [(⟨plan.newKeyId, cname, sha⟩ : RawPrivKey)] := by
  by_cases hp : optTruthy scan.priv_id = true <;>
    by_cases hd : plan.deleteKeyOk = true <;>
      simp [uploadEffect, post_private_key, hpk, hp, hd, delete_private_key,
        delete_certificate_keys, patchAll_keys, post_certificate_fst_keys,
        apply_ite RemoteState.keys]

/-- The certificate collection a successful `post_certificate` leaves
behind, after the optional delete of the old certificate. -/
theorem uploadEffect_state_certs (cname sha : String) (scan : ScanState)
    (plan : CallPlan) (s0 : RemoteState) (hpc : plan.postCertOk = true) :
    (uploadEffect cname sha scan plan s0).state.certs =
      if optTruthy scan.cert_id && plan.deleteCertOk then
        (s0.certs ++ [(⟨plan.newCertId, cname⟩ : CertEntry)]).filter
          (fun cc => !(cc.id == scan.cert_id.getD ""))
      else s0.certs ++ [(⟨plan.newCertId, cname⟩ : CertEntry)] := by
  by_cases hp : optTruthy scan.cert_id = true <;>
    by_cases hd : plan.deleteCertOk = true <;>
      simp [uploadEffect, post_certificate, hpc, hp, hd, delete_certificate,
        delete_private_key_certs, patchAll_certs, post_private_key_fst_certs,
        apply_ite RemoteState.certs]

/-- The activation collection after a run whose certificate create,
activation listing and activation updates all succeed: every
activation whose id the activation listing reported for the old
certificate is re-pointed to the new certificate id. -/
theorem uploadEffect_state_acts (cname sha : String) (scan : ScanState)
    (plan : CallPlan) (s0 : RemoteState) (hpc : plan.postCertOk = true)
    (hla : plan.listActsOk = true) (hpf : plan.patchFails = [])
    (hnc : plan.newCertId ≠ "") :
    (uploadEffect cname sha scan plan s0).state.acts =
      if ((s0.acts.filter (actRef scan.cert_id)).map (fun b => b.id)).isEmpty then
        s0.acts
      else s0.acts.map (fun a =>
        if a.id ∈ (s0.acts.filter (actRef scan.cert_id)).map (fun b => b.id)
        then (⟨a.id, plan.newCertId⟩ : RawAct) else a) := by
  have hncb : (plan.newCertId == "") = false := beq_eq_false_iff_ne.mpr hnc
  by_cases hemp :
      ((s0.acts.filter (actRef scan.cert_id)).map (fun b => b.id)).isEmpty = true <;>
    simp [uploadEffect, post_certificate, hpc, hla, hpf, get_activation,
      post_private_key_fst_acts, delete_certificate_acts, delete_private_key_acts,
      patchAll_acts_nofail, optTruthy, hncb, hemp, apply_ite RemoteState.acts]

/-- When the lookup found nothing old (`priv_id = cert_id = None`),
the upload branch only issues the two creates. -/
theorem uploadEffect_trace_no_old (cname sha : String) (plan : CallPlan)
    (s0 : RemoteState) :
    (uploadEffect cname sha ⟨none, none, false⟩ plan s0).trace =
      [Event.createKey cname, Event.createCert cname] := by
  simp [uploadEffect, get_activation_none, optTruthy]

/-! ## Claim theorems -/

/-- Claim C10: each listing helper catches a failure of the underlying
HTTP GET and returns the empty list, the same value it returns on a
genuinely empty inventory (and, for `get_activation`, on a certificate
with no activations), so callers cannot tell the cases apart. -/
theorem listing_failures_empty :
    ∀ (err : String) (cid : Option String),
      get_all_private_keys (Except.error err) = [] ∧
      get_all_certificates (Except.error err) = [] ∧
      get_activation cid (Except.error err) = [] ∧
      get_all_private_keys (Except.error err) = get_all_private_keys (Except.ok []) ∧
      get_all_certificates (Except.error err) = get_all_certificates (Except.ok []) ∧
      get_activation cid (Except.error err) = get_activation cid (Except.ok []) := by
  intro err cid
  exact ⟨rfl, rfl, rfl, rfl, rfl, rfl⟩

/-- Claim C5: against an empty remote inventory the run attempts
exactly one private-key create and one certificate create — no
activation update and no delete — whatever the call outcomes are. -/
theorem cold_start_trace :
    ∀ (cname : String) (pk : LocalPrivateKey) (plan : CallPlan),
      (uploadRun cname pk plan ⟨[], [], []⟩).trace =
        [Event.createKey cname, Event.createCert cname] ∧
      (uploadRun cname pk plan ⟨[], [], []⟩).uploaded = true := by
  intro cname pk plan
  obtain ⟨lk, lc, pko, nk, pco, nc, lao, pf, dco, dko⟩ := plan
  cases lk <;> cases lc <;> cases pko <;> cases pco <;> cases lao <;>
    exact ⟨rfl, rfl⟩

/-- Claim C4, counterexample: the remote key inventory is up to date
(`k1` has the desired fingerprint), but the private-key listing fails;
the claim says the run aborts with no remote mutation, yet the run
issues the two create calls. -/
theorem lookup_failure_mutates_cx :
    (uploadRun "example.com" ⟨[48, 0]⟩
      ⟨false, true, true, "k9", true, "c9", true, [], true, true⟩
      ⟨[⟨"k1", "example.com", "4e706296725aafe46565622d450f023cbc3beaa8"⟩],
       [], []⟩).trace =
      [Event.createKey "example.com", Event.createCert "example.com"] := by
  decide

/-- Claim C4 (amended): a failure of the private-key listing during
Lookup is caught inside `get_all_private_keys` and treated as an empty
inventory, so the run does not abort: it takes the cold-start upload
path and issues the private-key and certificate create calls (and, no
old ids having been recorded, no update or delete). -/
theorem lookup_failure_cold_start :
    ∀ (cname : String) (pk : LocalPrivateKey) (plan : CallPlan) (s0 : RemoteState),
      plan.listKeysOk = false →
      (uploadRun cname pk plan s0).trace =
        [Event.createKey cname, Event.createCert cname] ∧
      (uploadRun cname pk plan s0).uploaded = true := by
  intro cname pk plan s0 h
  have hrun : uploadRun cname pk plan s0 =
      uploadEffect cname (get_public_key_sha1 pk) ⟨none, none, false⟩ plan s0 := by
    simp [uploadRun, h, get_all_private_keys, lookupScan, scanKeys, optTruthy]
  rw [hrun]
  exact ⟨uploadEffect_trace_no_old _ _ _ _, rfl⟩

theorem lookup_failure_cold_start_witness :
    (uploadRun "example.com" (⟨[48, 0]⟩ : LocalPrivateKey)
      ⟨false, true, true, "k9", true, "c9", true, [], true, true⟩
      ⟨[⟨"k1", "example.com", "f1"⟩], [⟨"c1", "example.com"⟩], []⟩).trace =
      [Event.createKey "example.com", Event.createCert "example.com"] ∧
    (uploadRun "example.com" (⟨[48, 0]⟩ : LocalPrivateKey)
      ⟨false, true, true, "k9", true, "c9", true, [], true, true⟩
      ⟨[⟨"k1", "example.com", "f1"⟩], [⟨"c1", "example.com"⟩], []⟩).uploaded = true :=
  lookup_failure_cold_start "example.com" ⟨[48, 0]⟩ _ _ rfl

/-- Claim C9: which calls a run attempts — in particular the remaining
activation updates and the two cleanup deletes — never depends on
which activation PATCHes fail, since `patch_activation` swallows its
exceptions; concretely, a rotation in which the update of `a2` fails
still attempts both patches and both deletes, in order. -/
theorem patch_failure_containment :
    (∀ (cname : String) (pk : LocalPrivateKey) (plan : CallPlan)
        (s0 : RemoteState) (L : List String),
      (uploadRun cname pk { plan with patchFails := L } s0).trace =
        (uploadRun cname pk plan s0).trace ∧
      (uploadRun cname pk { plan with patchFails := L } s0).uploaded =
        (uploadRun cname pk plan s0).uploaded) ∧
    (uploadRun "example.com" ⟨[48, 0]⟩
      ⟨true, true, true, "k9", true, "c9", true, ["a2"], true, true⟩
      ⟨[⟨"k1", "example.com", "f1"⟩], [⟨"c1", "example.com"⟩],
       [⟨"a1", "c1"⟩, ⟨"a2", "c1"⟩]⟩).trace =
      [Event.createKey "example.com", Event.createCert "example.com",
       Event.patchAct "a1" "c9", Event.patchAct "a2" "c9",
       Event.deleteCert "c1", Event.deleteKey "k1"] := by
  constructor
  · intro cname pk plan s0 L
    obtain ⟨lk, lc, pko, nk, pco, nc, lao, pf, dco, dko⟩ := plan
    simp only [uploadRun]
    split <;> split <;> split <;> exact ⟨rfl, rfl⟩
  · decide

/-- Claim C1, counterexample: an old key (`k1`, stale fingerprint) and
an old certificate (`c1`) are recorded, the new-certificate create
fails, yet the run still attempts to delete the old certificate and
the old private key, instead of failing fast. -/
theorem cert_create_failure_deletes_attempted_cx :
    Event.deleteCert "c1" ∈ (uploadRun "example.com" ⟨[48, 0]⟩
      ⟨true, true, true, "k9", false, "c9", true, [], true, true⟩
      ⟨[⟨"k1", "example.com", "f1"⟩], [⟨"c1", "example.com"⟩],
       [⟨"a1", "c1"⟩]⟩).trace ∧
    Event.deleteKey "k1" ∈ (uploadRun "example.com" ⟨[48, 0]⟩
      ⟨true, true, true, "k9", false, "c9", true, [], true, true⟩
      ⟨[⟨"k1", "example.com", "f1"⟩], [⟨"c1", "example.com"⟩],
       [⟨"a1", "c1"⟩]⟩).trace := by
  decide

/-- Claim C1 (amended): when the reconciliation has recorded an old
private-key id and an old certificate id and the certificate create
fails, the run does not fail fast and reports no error (the create
failure is caught and logged inside `post_certificate`): activation
re-pointing is skipped, but the deletes of the old certificate and of
the old private key are still attempted. -/
theorem cert_create_failure_behavior :
    ∀ (cname k c f1 : String) (pk : LocalPrivateKey) (la : List RawAct)
      (plan : CallPlan),
      plan.listKeysOk = true → plan.listCertsOk = true → plan.postCertOk = false →
      f1 ≠ get_public_key_sha1 pk → k ≠ "" → c ≠ "" →
      (uploadRun cname pk plan ⟨[⟨k, cname, f1⟩], [⟨c, cname⟩], la⟩).trace =
        [Event.createKey cname, Event.createCert cname,
         Event.deleteCert c, Event.deleteKey k] := by
  intro cname k c f1 pk la plan h1 h2 h3 hf hk hc
  have hfb : (f1 == get_public_key_sha1 pk) = false := beq_eq_false_iff_ne.mpr hf
  have hkb : (k == "") = false := beq_eq_false_iff_ne.mpr hk
  have hcb : (c == "") = false := beq_eq_false_iff_ne.mpr hc
  have hscan : lookupScan cname (get_public_key_sha1 pk)
      (get_all_private_keys (Except.ok [⟨k, cname, f1⟩]))
      (get_all_certificates (Except.ok [⟨c, cname⟩])) = ⟨some k, some c, true⟩ := by
    simp [lookupScan, scanKeys, certScan, get_all_private_keys,
      get_all_certificates, hfb]
  simp [uploadRun, h1, h2, hscan, uploadEffect, post_certificate, h3,
    optTruthy, hkb, hcb]

theorem cert_create_failure_behavior_witness :
    (uploadRun "example.com" (⟨[48, 0]⟩ : LocalPrivateKey)
      ⟨true, true, true, "k9", false, "c9", true, [], true, true⟩
      ⟨[⟨"k1", "example.com", "f1"⟩], [⟨"c1", "example.com"⟩],
       [⟨"a1", "c1"⟩]⟩).trace =
      [Event.createKey "example.com", Event.createCert "example.com",
       Event.deleteCert "c1", Event.deleteKey "k1"] :=
  cert_create_failure_behavior "example.com" "k1" "c1" "f1" ⟨[48, 0]⟩
    [⟨"a1", "c1"⟩] _ rfl rfl rfl (by decide) (by decide) (by decide)

/-- Claim C6: from an inventory of one stale key named `cname`, one
certificate of the same name and two activations referencing it, a
successful run attempts: create key, create certificate, update both
activations to the new certificate id, delete the old certificate,
delete the old key — in exactly that order. -/
theorem rotation_trace :
    ∀ (cname k c a1 a2 f1 : String) (pk : LocalPrivateKey) (plan : CallPlan),
      plan.listKeysOk = true → plan.listCertsOk = true → plan.postCertOk = true →
      plan.listActsOk = true → plan.newCertId ≠ "" →
      f1 ≠ get_public_key_sha1 pk → k ≠ "" → c ≠ "" →
      (uploadRun cname pk plan
        ⟨[⟨k, cname, f1⟩], [⟨c, cname⟩], [⟨a1, c⟩, ⟨a2, c⟩]⟩).trace =
        [Event.createKey cname, Event.createCert cname,
         Event.patchAct a1 plan.newCertId, Event.patchAct a2 plan.newCertId,
         Event.deleteCert c, Event.deleteKey k] := by
  intro cname k c a1 a2 f1 pk plan h1 h2 h3 h4 h5 hf hk hc
  have hfb : (f1 == get_public_key_sha1 pk) = false := beq_eq_false_iff_ne.mpr hf
  have hkb : (k == "") = false := beq_eq_false_iff_ne.mpr hk
  have hcb : (c == "") = false := beq_eq_false_iff_ne.mpr hc
  have hncb : (plan.newCertId == "") = false := beq_eq_false_iff_ne.mpr h5
  have hscan : lookupScan cname (get_public_key_sha1 pk)
      (get_all_private_keys (Except.ok [⟨k, cname, f1⟩]))
      (get_all_certificates (Except.ok [⟨c, cname⟩])) = ⟨some k, some c, true⟩ := by
    simp [lookupScan, scanKeys, certScan, get_all_private_keys,
      get_all_certificates, hfb]
  simp [uploadRun, h1, h2, hscan, uploadEffect, post_certificate, h3, h4,
    get_activation, actRef, post_private_key_fst_acts, optTruthy, hkb, hcb, hncb]

theorem rotation_trace_witness :
    (uploadRun "example.com" (⟨[48, 0]⟩ : LocalPrivateKey)
      ⟨true, true, true, "k9", true, "c9", true, [], true, true⟩
      ⟨[⟨"k1", "example.com", "f1"⟩], [⟨"c1", "example.com"⟩],
       [⟨"a1", "c1"⟩, ⟨"a2", "c1"⟩]⟩).trace =
      [Event.createKey "example.com", Event.createCert "example.com",
       Event.patchAct "a1" "c9", Event.patchAct "a2" "c9",
       Event.deleteCert "c1", Event.deleteKey "k1"] :=
  rotation_trace "example.com" "k1" "c1" "a1" "a2" "f1" ⟨[48, 0]⟩ _
    rfl rfl rfl rfl (by decide) (by decide) (by decide) (by decide)

/-- Claim C7, counterexample: the lookup is not determined by the
first name-matching entry.  With a first entry whose fingerprint
mismatches, adding a second same-named entry whose fingerprint matches
flips the run from an upload to the no-op path; and with two
same-named certificates, the one deleted is the second, not the
first. -/
theorem first_match_rule_cx :
    (uploadRun "example.com" ⟨[48, 0]⟩
        ⟨true, true, true, "k9", true, "c9", true, [], true, true⟩
        ⟨[⟨"k1", "example.com", "zz"⟩], [], []⟩).trace ≠ [] ∧
    (uploadRun "example.com" ⟨[48, 0]⟩
        ⟨true, true, true, "k9", true, "c9", true, [], true, true⟩
        ⟨[⟨"k1", "example.com", "zz"⟩,
          ⟨"k2", "example.com", "4e706296725aafe46565622d450f023cbc3beaa8"⟩],
         [], []⟩).trace = [] ∧
    Event.deleteCert "c2" ∈ (uploadRun "example.com" ⟨[48, 0]⟩
        ⟨true, true, true, "k9", true, "c9", true, [], true, true⟩
        ⟨[⟨"k1", "example.com", "zz"⟩],
         [⟨"c1", "example.com"⟩, ⟨"c2", "example.com"⟩], []⟩).trace ∧
    ¬ Event.deleteCert "c1" ∈ (uploadRun "example.com" ⟨[48, 0]⟩
        ⟨true, true, true, "k9", true, "c9", true, [], true, true⟩
        ⟨[⟨"k1", "example.com", "zz"⟩],
         [⟨"c1", "example.com"⟩, ⟨"c2", "example.com"⟩], []⟩).trace := by
  decide

/-- Claim C7 (amended): the lookup scans past name-matching entries
with a different fingerprint.  It reports up-to-date as soon as some
name-matching entry's fingerprint matches; otherwise the remembered
old key id is the id of the *last* name-matching key entry, and the
old certificate id is the id of the *last* name-matching certificate
entry (set only when some key entry matched the name). -/
theorem scan_last_match_rule :
    ∀ (cname sha : String) (keys : List PrivKeyEntry) (certs : List CertEntry),
      ((∃ e ∈ keys, e.name = cname ∧ e.sha1 = sha) →
        (lookupScan cname sha keys certs).priv_id = none ∧
        (lookupScan cname sha keys certs).name_found = true) ∧
      ((∀ e ∈ keys, e.name = cname → e.sha1 ≠ sha) →
        lookupScan cname sha keys certs =
          ⟨lastNameMatchKeyId cname keys,
           if (keys.filter fun e => e.name == cname).isEmpty then none
             else lastNameMatchCertId cname certs,
           !(keys.filter fun e => e.name == cname).isEmpty⟩) := by
  intro cname sha keys certs
  constructor
  · intro h
    exact scanKeys_found_match cname sha certs keys none none false h
  · intro h
    rw [lookupScan, scanKeys_all_mismatch cname sha certs keys none none false h]
    cases hb : lastNameMatchCertId cname certs <;>
      simp [Option.or_none, Option.none_or, hb]

theorem scan_last_match_rule_witness :
    lookupScan "example.com" "f2"
        [⟨"k1", "example.com", "f1"⟩, ⟨"k2", "example.com", "f3"⟩]
        [⟨"c1", "example.com"⟩, ⟨"c2", "example.com"⟩] =
      ⟨some "k2", some "c2", true⟩ := by
  have h := (scan_last_match_rule "example.com" "f2"
    [⟨"k1", "example.com", "f1"⟩, ⟨"k2", "example.com", "f3"⟩]
    [⟨"c1", "example.com"⟩, ⟨"c2", "example.com"⟩]).2 (by decide)
  exact h.trans (by decide)

/-- Claim C8, counterexample: the digest the reconciler computes is
not the SHA-1 of the DER-encoded public key: for a concrete key it
differs from the hex SHA-1 of the raw DER bytes (it is the SHA-1 of
the PEM serialisation instead). -/
theorem fingerprint_not_der_cx :
    get_public_key_sha1 ⟨[48, 0]⟩ ≠ derFingerprint ⟨[48, 0]⟩ := by
  decide

/-- Claim C8 (amended): the fingerprint the reconciler computes and
compares is the hex SHA-1 digest of the PEM-encoded
(`SubjectPublicKeyInfo`) public key, and a name-matching remote key is
judged up to date iff its stored `public_key_sha1` equals that
digest. -/
theorem fingerprint_pem_match_decision :
    ∀ (cname : String) (pk : LocalPrivateKey) (e : PrivKeyEntry)
      (certs : List CertEntry),
      e.name = cname →
      (((lookupScan cname (get_public_key_sha1 pk) [e] certs).priv_id = none ∧
        (lookupScan cname (get_public_key_sha1 pk) [e] certs).name_found = true) ↔
        e.sha1 = sha1Hex (pemPublicKeyBytes pk.publicDER)) := by
  intro cname pk e certs hname
  have hn : (e.name == cname) = true := beq_iff_eq.mpr hname
  constructor
  · intro ⟨h1, _⟩
    by_cases hs : (e.sha1 == get_public_key_sha1 pk) = true
    · exact beq_iff_eq.mp hs
    · exfalso
      simp [lookupScan, scanKeys, hn, hs] at h1
  · intro hsha
    have hs : (e.sha1 == get_public_key_sha1 pk) = true := beq_iff_eq.mpr hsha
    simp [lookupScan, scanKeys, hn, hs]

/-- Claim C2, counterexample: the initial state satisfies the
invariant; the activation update for `a1` fails (the exception is
swallowed), the old-certificate delete still succeeds, and the final
state has activation `a1` referencing the deleted certificate `c1`. -/
theorem activation_dangling_cx :
    noDangling (⟨[⟨"k1", "example.com", "f1"⟩], [⟨"c1", "example.com"⟩],
      [⟨"a1", "c1"⟩]⟩ : RemoteState) ∧
    ¬ noDangling (uploadRun "example.com" ⟨[48, 0]⟩
      ⟨true, true, true, "k9", true, "c9", true, ["a1"], true, true⟩
      ⟨[⟨"k1", "example.com", "f1"⟩], [⟨"c1", "example.com"⟩],
       [⟨"a1", "c1"⟩]⟩).state := by
  constructor
  · decide
  · decide

/-- Claim C2 (amended): the old-certificate delete is attempted after
the activation re-points but is not conditioned on their success, so
the invariant only holds when the calls involved all succeed: if the
certificate create, the activation listing and every activation update
succeed (the new certificate id being fresh and nonempty), a run
started in a state where no activation references a missing
certificate ends in such a state. -/
theorem no_dangling_when_all_calls_succeed :
    ∀ (cname : String) (pk : LocalPrivateKey) (plan : CallPlan) (s0 : RemoteState),
      plan.postCertOk = true → plan.listActsOk = true → plan.patchFails = [] →
      plan.newCertId ≠ "" →
      (∀ cc ∈ s0.certs, cc.id ≠ plan.newCertId) →
      noDangling s0 →
      noDangling (uploadRun cname pk plan s0).state := by
  intro cname pk plan s0 h1 h2 h3 h4 hfresh hinv
  rw [uploadRun_eq]
  split
  case isFalse => exact hinv
  case isTrue hdec =>
    intro a ha
    rw [uploadEffect_state_acts _ _ _ _ _ h1 h2 h3 h4] at ha
    rw [uploadEffect_state_certs _ _ _ _ _ h1]
    cases hsc : (runScan cname pk plan s0).cert_id with
    | none =>
      rw [hsc] at ha
      simp only [filter_actRef_none, List.map_nil, List.isEmpty_nil, if_true] at ha
      obtain ⟨cc, hcc, hccid⟩ := hinv a ha
      simp only [optTruthy, Bool.false_and, Bool.false_eq_true, if_false]
      exact ⟨cc, List.mem_append_left _ hcc, hccid⟩
    | some cid =>
      have hcid_mem : ∃ rawc ∈ s0.certs, rawc.id = cid := by
        cases hlc : plan.listCertsOk with
        | false =>
          have h' : (scanKeys cname (get_public_key_sha1 pk)
              (get_all_certificates (Except.error ""))
              (get_all_private_keys
                (if plan.listKeysOk then Except.ok s0.keys else Except.error ""))
              none none false).cert_id = some cid := by
            rw [← hsc]
            simp [runScan, lookupScan, hlc]
          rcases scanKeys_cert_mem _ _ _ _ _ _ _ _ h' with ⟨ce, hce, _⟩ | habs
          · exact absurd hce (List.not_mem_nil _)
          · exact Option.noConfusion habs
        | true =>
          have h' : (scanKeys cname (get_public_key_sha1 pk)
              (get_all_certificates (Except.ok s0.certs))
              (get_all_private_keys
                (if plan.listKeysOk then Except.ok s0.keys else Except.error ""))
              none none false).cert_id = some cid := by
            rw [← hsc]
            simp [runScan, lookupScan, hlc]
          rcases scanKeys_cert_mem _ _ _ _ _ _ _ _ h' with ⟨ce, hce, hceid⟩ | habs
          · obtain ⟨rawc, hrawc, hrawe⟩ := List.mem_map.mp hce
            refine ⟨rawc, hrawc, ?_⟩
            have : rawc.id = ce.id := by rw [← hrawe]
            rw [this, hceid]
          · exact Option.noConfusion habs
      obtain ⟨rawc, hrawc, hrawcid⟩ := hcid_mem
      have hnewne : plan.newCertId ≠ cid := by
        intro heq
        exact hfresh rawc hrawc (by rw [hrawcid, ← heq])
      have hkeep : ∀ cc ∈ s0.certs ++ [(⟨plan.newCertId, cname⟩ : CertEntry)],
          cc.id ≠ cid →
          cc ∈ (if optTruthy (some cid) && plan.deleteCertOk
            then (s0.certs ++ [(⟨plan.newCertId, cname⟩ : CertEntry)]).filter
              (fun x => !(x.id == (some cid : Option String).getD ""))
            else s0.certs ++ [(⟨plan.newCertId, cname⟩ : CertEntry)]) := by
        intro cc hcc hne
        split
        · apply List.mem_filter.mpr
          refine ⟨hcc, ?_⟩
          simpa using beq_eq_false_iff_ne.mpr hne
        · exact hcc
      rw [hsc] at ha
      by_cases hemp :
          ((s0.acts.filter (actRef (some cid))).map (fun b => b.id)).isEmpty = true
      · rw [if_pos hemp] at ha
        have hnil : s0.acts.filter (actRef (some cid)) = [] :=
          List.map_eq_nil_iff.mp (List.isEmpty_iff.mp hemp)
        obtain ⟨cc, hcc, hccid⟩ := hinv a ha
        have hane : a.tls_certificate_id ≠ cid := by
          have hfa := List.filter_eq_nil_iff.mp hnil a ha
          simpa [actRef] using hfa
        refine ⟨cc, hkeep cc (List.mem_append_left _ hcc) ?_, hccid⟩
        rw [hccid]
        exact hane
      · rw [if_neg hemp] at ha
        obtain ⟨b, hb, hba⟩ := List.mem_map.mp ha
        by_cases hbin : b.id ∈ (s0.acts.filter (actRef (some cid))).map (fun x => x.id)
        · rw [if_pos hbin] at hba
          refine ⟨⟨plan.newCertId, cname⟩,
            hkeep _ (List.mem_append_right _ (List.mem_singleton.mpr rfl)) hnewne, ?_⟩
          rw [← hba]
        · rw [if_neg hbin] at hba
          subst hba
          have hbne : b.tls_certificate_id ≠ cid := by
            intro heq
            apply hbin
            exact List.mem_map_of_mem _
              (List.mem_filter.mpr ⟨hb, by simp [actRef, heq]⟩)
          obtain ⟨cc, hcc, hccid⟩ := hinv b hb
          refine ⟨cc, hkeep cc (List.mem_append_left _ hcc) ?_, hccid⟩
          rw [hccid]
          exact hbne

theorem no_dangling_when_all_calls_succeed_witness :
    noDangling (uploadRun "example.com" (⟨[48, 0]⟩ : LocalPrivateKey)
      ⟨true, true, true, "k9", true, "c9", true, [], true, true⟩
      ⟨[⟨"k1", "example.com", "f1"⟩], [⟨"c1", "example.com"⟩],
       [⟨"a1", "c1"⟩, ⟨"a2", "c1"⟩]⟩).state :=
  no_dangling_when_all_calls_succeed "example.com" ⟨[48, 0]⟩ _ _
    rfl rfl rfl (by decide) (by decide) (by decide)

/-- Claim C3: re-running `upload` for the same certificate on the
state left by a prior run whose remote calls all succeeded (and whose
service-assigned key id was fresh) performs zero mutating calls and
takes the up-to-date no-op branch: a successful run always leaves a
key named `cname` whose stored digest equals the local key's digest,
so the second scan breaks with `priv_id = None`. -/
theorem idempotent_second_run :
    ∀ (cname : String) (pk : LocalPrivateKey) (plan1 plan2 : CallPlan)
      (s0 : RemoteState),
      plan1.allOk →
      (∀ kk ∈ s0.keys, kk.id ≠ plan1.newKeyId) →
      plan2.listKeysOk = true →
      (uploadRun cname pk plan2 (uploadRun cname pk plan1 s0).state).trace = [] ∧
      (uploadRun cname pk plan2 (uploadRun cname pk plan1 s0).state).uploaded
        = false := by
  intro cname pk plan1 plan2 s0 hok hfresh h2
  obtain ⟨ha, hb, hc, _, _, _, _, _⟩ := hok
  by_cases hdec : (optTruthy (runScan cname pk plan1 s0).priv_id ||
      !(runScan cname pk plan1 s0).name_found) = true
  case neg =>
    have hs1 : (uploadRun cname pk plan1 s0).state = s0 := by
      rw [uploadRun_eq, if_neg hdec]
    rw [hs1]
    have hkeys : (if plan2.listKeysOk then Except.ok s0.keys else Except.error "") =
        (if plan1.listKeysOk then Except.ok s0.keys else Except.error "") := by
      rw [h2, ha]
    have hind := scanKeys_certs_indep cname (get_public_key_sha1 pk)
      (get_all_certificates
        (if plan2.listCertsOk then Except.ok s0.certs else Except.error ""))
      (get_all_certificates
        (if plan1.listCertsOk then Except.ok s0.certs else Except.error ""))
      (get_all_private_keys
        (if plan1.listKeysOk then Except.ok s0.keys else Except.error ""))
      none none none false
    have hp2 : (runScan cname pk plan2 s0).priv_id =
        (runScan cname pk plan1 s0).priv_id := by
      simp only [runScan, lookupScan, hkeys]
      exact hind.1
    have hf2 : (runScan cname pk plan2 s0).name_found =
        (runScan cname pk plan1 s0).name_found := by
      simp only [runScan, lookupScan, hkeys]
      exact hind.2
    have hdec2 : ¬ (optTruthy (runScan cname pk plan2 s0).priv_id ||
        !(runScan cname pk plan2 s0).name_found) = true := by
      rw [hp2, hf2]
      exact hdec
    rw [uploadRun_eq cname pk plan2 s0, if_neg hdec2]
    exact ⟨rfl, rfl⟩
  case pos =>
    have hs1 : (uploadRun cname pk plan1 s0).state =
        (uploadEffect cname (get_public_key_sha1 pk) (runScan cname pk plan1 s0)
          plan1 s0).state := by
      rw [uploadRun_eq, if_pos hdec]
    have hmem : (⟨plan1.newKeyId, cname, get_public_key_sha1 pk⟩ : RawPrivKey) ∈
        (uploadRun cname pk plan1 s0).state.keys := by
      rw [hs1, uploadEffect_state_keys _ _ _ _ _ hc]
      split
      case isTrue hcond =>
        apply List.mem_filter.mpr
        refine ⟨List.mem_append_right _ (List.mem_singleton.mpr rfl), ?_⟩
        cases hp : (runScan cname pk plan1 s0).priv_id with
        | none =>
          rw [hp] at hcond
          simp [optTruthy] at hcond
        | some i =>
          have hpm : (scanKeys cname (get_public_key_sha1 pk)
              (get_all_certificates (Except.ok s0.certs))
              (get_all_private_keys (Except.ok s0.keys))
              none none false).priv_id = some i := by
            rw [← hp]
            simp [runScan, lookupScan, ha, hb]
          rcases scanKeys_priv_mem cname (get_public_key_sha1 pk)
              (get_all_certificates (Except.ok s0.certs))
              (get_all_private_keys (Except.ok s0.keys)) none none false i hpm with
            ⟨e, he, heid⟩ | habs
          · obtain ⟨raw, hraw, hrawe⟩ := List.mem_map.mp he
            have hrid : raw.id = e.id := by rw [← hrawe]
            have hne : plan1.newKeyId ≠ i := by
              intro heq
              exact hfresh raw hraw (by rw [hrid, heid, ← heq])
            simpa using beq_eq_false_iff_ne.mpr hne
          · exact Option.noConfusion habs
      case isFalse =>
        exact List.mem_append_right _ (List.mem_singleton.mpr rfl)
    have hmem_entry : (⟨plan1.newKeyId, cname, get_public_key_sha1 pk⟩ :
        PrivKeyEntry) ∈
        get_all_private_keys (Except.ok (uploadRun cname pk plan1 s0).state.keys) := by
      show _ ∈ ((uploadRun cname pk plan1 s0).state.keys).map
        (fun each => (⟨each.id, each.name, each.public_key_sha1⟩ : PrivKeyEntry))
      exact List.mem_map.mpr ⟨_, hmem, rfl⟩
    have hbreak := scanKeys_found_match cname (get_public_key_sha1 pk)
      (get_all_certificates
        (if plan2.listCertsOk then Except.ok (uploadRun cname pk plan1 s0).state.certs
         else Except.error ""))
      (get_all_private_keys (Except.ok (uploadRun cname pk plan1 s0).state.keys))
      none none false ⟨_, hmem_entry, rfl, rfl⟩
    have hpriv : (runScan cname pk plan2 (uploadRun cname pk plan1 s0).state).priv_id
        = none := by
      simp only [runScan, lookupScan, h2, if_true]
      exact hbreak.1
    have hfound : (runScan cname pk plan2
        (uploadRun cname pk plan1 s0).state).name_found = true := by
      simp only [runScan, lookupScan, h2, if_true]
      exact hbreak.2
    have hdec2 : ¬ (optTruthy (runScan cname pk plan2
        (uploadRun cname pk plan1 s0).state).priv_id ||
        !(runScan cname pk plan2 (uploadRun cname pk plan1 s0).state).name_found)
        = true := by
      rw [hpriv, hfound]
      simp [optTruthy]
    rw [uploadRun_eq cname pk plan2 ((uploadRun cname pk plan1 s0).state),
      if_neg hdec2]
    exact ⟨rfl, rfl⟩

theorem idempotent_second_run_witness :
    (uploadRun "example.com" (⟨[48, 0]⟩ : LocalPrivateKey)
      ⟨true, true, true, "k9", true, "c9", true, [], true, true⟩
      (uploadRun "example.com" (⟨[48, 0]⟩ : LocalPrivateKey)
        ⟨true, true, true, "k9", true, "c9", true, [], true, true⟩
        ⟨[⟨"k1", "example.com", "f1"⟩], [⟨"c1", "example.com"⟩],
         [⟨"a1", "c1"⟩, ⟨"a2", "c1"⟩]⟩).state).trace = [] ∧
    (uploadRun "example.com" (⟨[48, 0]⟩ : LocalPrivateKey)
      ⟨true, true, true, "k9", true, "c9", true, [], true, true⟩
      (uploadRun "example.com" (⟨[48, 0]⟩ : LocalPrivateKey)
        ⟨true, true, true, "k9", true, "c9", true, [], true, true⟩
        ⟨[⟨"k1", "example.com", "f1"⟩], [⟨"c1", "example.com"⟩],
         [⟨"a1", "c1"⟩, ⟨"a2", "c1"⟩]⟩).state).uploaded = false :=
  idempotent_second_run "example.com" ⟨[48, 0]⟩ _ _ _
    ⟨rfl, rfl, rfl, rfl, rfl, rfl, rfl, rfl⟩ (by decide) rfl

theorem fingerprint_pem_match_decision_witness :
    (((lookupScan "example.com" (get_public_key_sha1 ⟨[48, 0]⟩)
        [⟨"k1", "example.com", "4e706296725aafe46565622d450f023cbc3beaa8"⟩]
        []).priv_id = none ∧
      (lookupScan "example.com" (get_public_key_sha1 ⟨[48, 0]⟩)
        [⟨"k1", "example.com", "4e706296725aafe46565622d450f023cbc3beaa8"⟩]
        []).name_found = true) ↔
      "4e706296725aafe46565622d450f023cbc3beaa8" =
        sha1Hex (pemPublicKeyBytes [48, 0])) :=
  fingerprint_pem_match_decision "example.com" ⟨[48, 0]⟩
    ⟨"k1", "example.com", "4e706296725aafe46565622d450f023cbc3beaa8"⟩ [] rfl

end Fastly
